import Mathlib

/-!
Verification of the result-set consumption layer of `mysqldriver-go`
(`src/query.go`): a forward-only cursor (`Rows`) over row packets with
lazy, typed, NULL-aware column accessors and error latching.

Shallow embedding conventions:
* Go byte slices are `List Nat` (each element is a byte value `< 256`;
  the bound is never needed by the claims, so it is not carried around);
* Go `error` values are `Option GoError` (`none` = `nil`);
* Go machine integers are `Int` with explicit two's-complement wrap
  (`toInt8` models Go's `int8(...)` conversion, etc.);
* Go floating point values are exact rationals `Rat`: the MySQL text
  protocol transmits numbers as decimal text, and the claims only concern
  the exact decimal values, so binary rounding is abstracted away;
* Go `string(bytes)` is modelled byte-by-byte (`bytesToString`); for the
  ASCII data of the MySQL text protocol this agrees with Go's UTF-8 view.
-/

/-- Kind of a Go `strconv` failure: `*strconv.NumError.Err` is either
`strconv.ErrSyntax` (modelled by `invalid`) or `strconv.ErrRange`. -/
inductive ParseErr where
  | invalid : ParseErr
  | range : ParseErr
deriving DecidableEq

/-- Go's `strconv.NumError`: the failing function's name, the offending
numeral, and the kind of failure. -/
structure NumError where
  func : String
  num : String
  err : ParseErr
deriving DecidableEq

/-- A Go `error` value as seen by the cursor: a `strconv` conversion
error, or an opaque Row-Source (transport/decode) error. -/
inductive GoError where
  | num : NumError → GoError
  | stream : String → GoError
deriving DecidableEq

/-- Accumulating digit loop of Go's `strconv.ParseUint` (base 10):
per character, first a digit-validity check (else `ErrSyntax`), then an
overflow check against `maxVal` (else `ErrRange`, reported as soon as the
accumulated value would exceed `maxVal`, exactly as Go's
`n >= cutoff` / `n1 > maxVal` pair of checks does). -/
def goParseUintLoop (maxVal : Nat) : Nat → List Char → Except ParseErr Nat
  | n, [] => Except.ok n
  | n, c :: cs =>
    if c.isDigit then
      let n1 := n * 10 + (c.toNat - 48)
      if n1 > maxVal then Except.error ParseErr.range
      else goParseUintLoop maxVal n1 cs
    else Except.error ParseErr.invalid

/-- Go's `strconv.ParseUint(s, 10, 64)` applied to the digit part
(no sign accepted; empty input is a syntax error). -/
def goParseUint64 (s : List Char) : Except ParseErr Nat :=
  if s = [] then Except.error ParseErr.invalid
  else goParseUintLoop (2 ^ 64 - 1) 0 s

/-- Final clamping step of Go's `strconv.ParseInt`: against
`cutoff = 1 << (bitSize-1)`, a non-negative magnitude `un ≥ cutoff`
returns `cutoff-1` with `ErrRange`, a negative magnitude `un > cutoff`
returns `-cutoff` with `ErrRange`; otherwise the signed value. -/
def goParseIntClamp (neg : Bool) (cutoff un : Nat) : Int × Option ParseErr :=
  if neg = false ∧ un ≥ cutoff then ((cutoff : Int) - 1, some ParseErr.range)
  else if neg = true ∧ un > cutoff then (-(cutoff : Int), some ParseErr.range)
  else (if neg then -(un : Int) else (un : Int), none)

/-- Go's `strconv.ParseInt(s, 10, bitSize)` value and error kind:
optional single leading sign, then `ParseUint` on the rest; a `ParseUint`
range overflow leaves the magnitude at `1<<64 - 1`; finally
`goParseIntClamp` clamps against the requested bit width. -/
def goParseIntCore (s : String) (bitSize : Nat) : Int × Option ParseErr :=
  match s.data with
  | [] => (0, some ParseErr.invalid)
  | c :: cs =>
    let (neg, digits) :=
      if c = '+' then (false, cs)
      else if c = '-' then (true, cs)
      else (false, c :: cs)
    let cutoff : Nat := 2 ^ (bitSize - 1)
    match goParseUint64 digits with
    | Except.error ParseErr.invalid => (0, some ParseErr.invalid)
    | Except.error ParseErr.range => goParseIntClamp neg cutoff (2 ^ 64 - 1)
    | Except.ok un => goParseIntClamp neg cutoff un

/-- Go's `strconv.ParseInt(s, 10, bitSize)` with its `*NumError`. -/
def goParseInt (s : String) (bitSize : Nat) : Int × Option NumError :=
  let (v, e) := goParseIntCore s bitSize
  (v, e.map fun pe => ⟨"ParseInt", s, pe⟩)

/-- Go's `strconv.Atoi(s)` on a 64-bit platform: same value and error
kind as `ParseInt(s, 10, 64)`, with the error branded `"Atoi"` (both the
fast path and the slow path of Go's `Atoi` do this). -/
def goAtoi (s : String) : Int × Option NumError :=
  let (v, e) := goParseIntCore s 64
  (v, e.map fun pe => ⟨"Atoi", s, pe⟩)

/-- Go's `strconv.ParseBool`: the twelve literal tokens; anything else is
a syntax error with value `false`. -/
def goParseBool (s : String) : Bool × Option NumError :=
  if s = "1" ∨ s = "t" ∨ s = "T" ∨ s = "true" ∨ s = "TRUE" ∨ s = "True" then
    (true, none)
  else if s = "0" ∨ s = "f" ∨ s = "F" ∨ s = "false" ∨ s = "FALSE" ∨ s = "False" then
    (false, none)
  else (false, some ⟨"ParseBool", s, ParseErr.invalid⟩)

/-- Leading decimal digits of a character list, and the remainder. -/
def takeDigits : List Char → List Char × List Char
  | [] => ([], [])
  | c :: cs =>
    if c.isDigit then
      let (ds, rest) := takeDigits cs
      (c :: ds, rest)
    else ([], c :: cs)

/-- Value of a decimal digit string (most significant first). -/
def digitsVal (ds : List Char) : Nat :=
  ds.foldl (fun n c => n * 10 + (c.toNat - 48)) 0

/-- Optional exponent suffix of a Go float literal: empty, or
`e`/`E`, an optional sign, and a nonempty digit string. -/
def expPart (v : Rat) : List Char → Option Rat
  | [] => some v
  | c :: cs =>
    if c = 'e' ∨ c = 'E' then
      match cs with
      | [] => none
      | d :: ds =>
        let (eneg, digits) :=
          if d = '+' then (false, ds)
          else if d = '-' then (true, ds)
          else (false, d :: ds)
        if digits ≠ [] ∧ digits.all Char.isDigit then
          let e := digitsVal digits
          some (if eneg then v.mul (mkRat 1 (10 ^ e)) else v.mul (mkRat (10 ^ e) 1))
        else none
    else none

/-- Go's `strconv.ParseFloat` restricted to plain decimal notation
(optional sign, digits with at most one dot and at least one digit,
optional exponent), which is all the MySQL text protocol emits for
numeric columns: the exact rational value, or `none` on a syntax error.
The special forms (`Inf`, `NaN`, hex floats, underscores) and range
overflow to infinity are outside the model, as is binary rounding:
values are exact rationals. -/
def goParseFloatCore (s : String) : Option Rat :=
  match s.data with
  | [] => none
  | c :: cs =>
    let (neg, rest) :=
      if c = '+' then (false, cs)
      else if c = '-' then (true, cs)
      else (false, c :: cs)
    let (ip, r1) := takeDigits rest
    let (fp, r2) :=
      match r1 with
      | '.' :: r1' => takeDigits r1'
      | _ => ([], r1)
    if ip = [] ∧ fp = [] then none
    else
      let mantissa : Rat := mkRat (digitsVal (ip ++ fp)) (10 ^ fp.length)
      expPart (if neg then mantissa.neg else mantissa) r2

/-- Go's `strconv.ParseFloat(s, bitSize)` with its `*NumError`; the
`bitSize` only selects rounding/range in Go, which the exact-rational
model abstracts away. -/
def goParseFloat (s : String) (bitSize : Nat) : Rat × Option NumError :=
  let _ := bitSize
  match goParseFloatCore s with
  | some v => (v, none)
  | none => (0, some ⟨"ParseFloat", s, ParseErr.invalid⟩)

/-- Go's `int8(n)` conversion: two's-complement wrap into `[-128, 127]`. -/
def toInt8 (n : Int) : Int := (n + 128) % 256 - 128

/-- Go's `int16(n)` conversion. -/
def toInt16 (n : Int) : Int := (n + 2 ^ 15) % 2 ^ 16 - 2 ^ 15

/-- Go's `int32(n)` conversion. -/
def toInt32 (n : Int) : Int := (n + 2 ^ 31) % 2 ^ 32 - 2 ^ 31

/-- Go's `int64(n)` conversion. -/
def toInt64 (n : Int) : Int := (n + 2 ^ 63) % 2 ^ 64 - 2 ^ 63

/-- A raw MySQL row packet: a byte sequence. -/
abbrev Packet := List Nat

/-- Little-endian unsigned integer built from `k` bytes of `packet`
starting at `offset` (bytes past the end read as 0). -/
def leUint (packet : Packet) (offset k : Nat) : Nat :=
  (List.range k).foldr (fun i acc => acc * 256 + packet.getD (offset + i) 0) 0

/-- Modelled from the spec: the external Value Decoder
`mysqlproto.ReadRowValue(packet, offset)` (spec §4.3, §6), whose source
is not part of this repository.  Given a packet and an offset it returns
`(valueBytes, nextOffset, isNull)`: the byte `0xFB` is the NULL sentinel
(empty value, `isNull = true`); otherwise the column is a
length-encoded-integer length (`< 0xFB` literal, `0xFC`/`0xFD`/`0xFE`
followed by a little-endian length of 2, 3 or 8 bytes) and that many payload
bytes, with `nextOffset` just past the payload.  An out-of-range offset
returns an empty value without advancing (the spec leaves out-of-bounds
behaviour to the decoder). -/
def readRowValue (packet : Packet) (offset : Nat) : Packet × Nat × Bool :=
  match packet.get? offset with
  | none => ([], offset, false)
  | some b =>
    if b = 251 then ([], offset + 1, true)
    else
      let dataStart :=
        if b < 251 then offset + 1
        else if b = 252 then offset + 3
        else if b = 253 then offset + 4
        else if b = 254 then offset + 9
        else offset + 1
      let len :=
        if b < 251 then b
        else if b = 252 then leUint packet (offset + 1) 2
        else if b = 253 then leUint packet (offset + 1) 3
        else if b = 254 then leUint packet (offset + 1) 8
        else 0
      ((packet.drop dataStart).take len, dataStart + len, false)

/-- Go's `string(bytes)` on the ASCII data of the text protocol:
byte-by-byte character view. -/
def bytesToString (bs : Packet) : String :=
  String.mk (bs.map Char.ofNat)

/-- The Row Source (`mysqlproto.ResultSet`, external collaborator,
spec §6): a stream that yields each pending row packet in order and then
terminates, either cleanly (`term = none`) or with a transport/decode
error (`term = some e`). -/
structure ResultSet where
  pending : List Packet
  term : Option GoError
deriving DecidableEq

/-- `ResultSet.Row()`: next row packet or terminator, plus the advanced
stream state.  `(some p, none)` is one more row, `(none, none)` clean
end-of-stream, `(none, some e)` a fatal stream error (spec §6). -/
def ResultSet.row (rs : ResultSet) : (Option Packet × Option GoError) × ResultSet :=
  match rs.pending with
  | p :: rest => ((some p, none), ⟨rest, rs.term⟩)
  | [] => ((none, rs.term), rs)

/-- The cursor of `src/query.go`: `Rows{resultSet, packet, offset, eof, err}`. -/
structure Rows where
  resultSet : ResultSet
  packet : Packet
  offset : Nat
  eof : Bool
  err : Option GoError
deriving DecidableEq

/-- `Rows.Next()` (src/query.go:46-70): returns false if `eof` or an
error is already latched; otherwise pulls the next packet from the Row
Source — a source error latches `err` and sets `eof`; a `nil` packet
sets `eof`; a packet is stored with `offset` reset to 0 and true is
returned. -/
def Rows.next (r : Rows) : Bool × Rows :=
  if r.eof then (false, r)
  else if r.err ≠ none then (false, r)
  else
    let ((packet?, rowErr), rs) := r.resultSet.row
    match rowErr with
    | some e => (false, { r with resultSet := rs, err := some e, eof := true })
    | none =>
      match packet? with
      | none => (false, { r with resultSet := rs, eof := true })
      | some p => (true, { r with resultSet := rs, packet := p, offset := 0 })

/-- `Rows.Bytes()` (src/query.go:72-76): one decoder call, advance the
offset, return the value bytes (NULL flag discarded). -/
def Rows.bytes (r : Rows) : Packet × Rows :=
  let (value, offset, _) := readRowValue r.packet r.offset
  (value, { r with offset := offset })

/-- `Rows.NullBytes()` (src/query.go:78-82). -/
def Rows.nullBytes (r : Rows) : (Packet × Bool) × Rows :=
  let (value, offset, null) := readRowValue r.packet r.offset
  ((value, null), { r with offset := offset })

/-- `Rows.String()` (src/query.go:84-86). -/
def Rows.string (r : Rows) : String × Rows :=
  let (value, r1) := r.bytes
  (bytesToString value, r1)

/-- `Rows.NullString()` (src/query.go:88-91). -/
def Rows.nullString (r : Rows) : (String × Bool) × Rows :=
  let ((data, null), r1) := r.nullBytes
  ((bytesToString data, null), r1)

/-- Common body of the typed accessors (the Go source repeats this block
once per type, src/query.go:98-242): read the next column as a string;
a NULL column returns the zero value with `isNull = true` and no parse;
otherwise `parse` runs and a parse failure overwrites `err`
(`r.err = err` in the source), the parsed value being returned with
`isNull = false` either way. -/
def Rows.readConv (r : Rows) (parse : String → α × Option NumError) (zero : α) :
    (α × Bool) × Rows :=
  let ((str, null), r1) := r.nullString
  if null then ((zero, true), r1)
  else
    let (num, perr) := parse str
    let r2 :=
      match perr with
      | some e => { r1 with err := some (GoError.num e) }
      | none => r1
    ((num, false), r2)

/-- Column parse of `Rows.NullInt` (src/query.go:104): `strconv.Atoi`. -/
def intCol (s : String) : Int × Option NumError := goAtoi s

/-- Column parse of `Rows.NullInt8` (src/query.go:123-128):
`strconv.ParseInt(str, 10, 8)` followed by the `int8(num)` conversion. -/
def int8Col (s : String) : Int × Option NumError :=
  let (n, e) := goParseInt s 8
  (toInt8 n, e)

/-- Column parse of `Rows.NullInt16` (src/query.go:142-147). -/
def int16Col (s : String) : Int × Option NumError :=
  let (n, e) := goParseInt s 16
  (toInt16 n, e)

/-- Column parse of `Rows.NullInt32` (src/query.go:161-166). -/
def int32Col (s : String) : Int × Option NumError :=
  let (n, e) := goParseInt s 32
  (toInt32 n, e)

/-- Column parse of `Rows.NullInt64` (src/query.go:180-185). -/
def int64Col (s : String) : Int × Option NumError :=
  let (n, e) := goParseInt s 64
  (toInt64 n, e)

/-- Column parse of `Rows.NullFloat32` (src/query.go:199-204):
`strconv.ParseFloat(str, 32)`; the `float32(num)` conversion is the
identity in the exact-rational model. -/
def float32Col (s : String) : Rat × Option NumError := goParseFloat s 32

/-- Column parse of `Rows.NullFloat64` (src/query.go:218-223). -/
def float64Col (s : String) : Rat × Option NumError := goParseFloat s 64

/-- Column parse of `Rows.NullBool` (src/query.go:237-241). -/
def boolCol (s : String) : Bool × Option NumError := goParseBool s

/-- `Rows.NullInt()` (src/query.go:98-110). -/
def Rows.nullInt (r : Rows) : (Int × Bool) × Rows := r.readConv intCol 0

/-- `Rows.Int()` (src/query.go:93-96). -/
def Rows.int (r : Rows) : Int × Rows :=
  let ((num, _), r1) := r.nullInt
  (num, r1)

/-- `Rows.NullInt8()` (src/query.go:117-129). -/
def Rows.nullInt8 (r : Rows) : (Int × Bool) × Rows := r.readConv int8Col 0

/-- `Rows.Int8()` (src/query.go:112-115). -/
def Rows.int8 (r : Rows) : Int × Rows :=
  let ((num, _), r1) := r.nullInt8
  (num, r1)

/-- `Rows.NullInt16()` (src/query.go:136-148). -/
def Rows.nullInt16 (r : Rows) : (Int × Bool) × Rows := r.readConv int16Col 0

/-- `Rows.Int16()` (src/query.go:131-134). -/
def Rows.int16 (r : Rows) : Int × Rows :=
  let ((num, _), r1) := r.nullInt16
  (num, r1)

/-- `Rows.NullInt32()` (src/query.go:155-167). -/
def Rows.nullInt32 (r : Rows) : (Int × Bool) × Rows := r.readConv int32Col 0

/-- `Rows.Int32()` (src/query.go:150-153). -/
def Rows.int32 (r : Rows) : Int × Rows :=
  let ((num, _), r1) := r.nullInt32
  (num, r1)

/-- `Rows.NullInt64()` (src/query.go:174-186). -/
def Rows.nullInt64 (r : Rows) : (Int × Bool) × Rows := r.readConv int64Col 0

/-- `Rows.Int64()` (src/query.go:169-172). -/
def Rows.int64 (r : Rows) : Int × Rows :=
  let ((num, _), r1) := r.nullInt64
  (num, r1)

/-- `Rows.NullFloat32()` (src/query.go:193-205). -/
def Rows.nullFloat32 (r : Rows) : (Rat × Bool) × Rows := r.readConv float32Col 0

/-- `Rows.Float32()` (src/query.go:188-191). -/
def Rows.float32 (r : Rows) : Rat × Rows :=
  let ((num, _), r1) := r.nullFloat32
  (num, r1)

/-- `Rows.NullFloat64()` (src/query.go:212-224). -/
def Rows.nullFloat64 (r : Rows) : (Rat × Bool) × Rows := r.readConv float64Col 0

/-- `Rows.Float64()` (src/query.go:207-210). -/
def Rows.float64 (r : Rows) : Rat × Rows :=
  let ((num, _), r1) := r.nullFloat64
  (num, r1)

/-- `Rows.NullBool()` (src/query.go:231-242). -/
def Rows.nullBool (r : Rows) : (Bool × Bool) × Rows := r.readConv boolCol false

/-- `Rows.Bool()` (src/query.go:226-229). -/
def Rows.bool (r : Rows) : Bool × Rows :=
  let ((b, _), r1) := r.nullBool
  (b, r1)

/-- `Rows.LastError()` (src/query.go:257-259). -/
def Rows.lastError (r : Rows) : Option GoError := r.err

/-- The cursor returned by `Conn.Query` (src/query.go:272,
`&Rows{resultSet: resultSet}`): zero-valued packet/offset/eof/err. -/
def freshRows (ps : List Packet) (term : Option GoError) : Rows :=
  ⟨⟨ps, term⟩, [], 0, false, none⟩

/-- The operations a caller can perform on a `Rows` cursor. -/
inductive Op where
  | next | bytes | nullBytes | string | nullString
  | int | nullInt | int8 | nullInt8 | int16 | nullInt16
  | int32 | nullInt32 | int64 | nullInt64
  | float32 | nullFloat32 | float64 | nullFloat64
  | bool | nullBool
deriving DecidableEq

/-- State transition of one cursor operation (its returned value
discarded). -/
def Rows.step (r : Rows) : Op → Rows
  | Op.next => (r.next).2
  | Op.bytes => (r.bytes).2
  | Op.nullBytes => (r.nullBytes).2
  | Op.string => (r.string).2
  | Op.nullString => (r.nullString).2
  | Op.int => (r.int).2
  | Op.nullInt => (r.nullInt).2
  | Op.int8 => (r.int8).2
  | Op.nullInt8 => (r.nullInt8).2
  | Op.int16 => (r.int16).2
  | Op.nullInt16 => (r.nullInt16).2
  | Op.int32 => (r.int32).2
  | Op.nullInt32 => (r.nullInt32).2
  | Op.int64 => (r.int64).2
  | Op.nullInt64 => (r.nullInt64).2
  | Op.float32 => (r.float32).2
  | Op.nullFloat32 => (r.nullFloat32).2
  | Op.float64 => (r.float64).2
  | Op.nullFloat64 => (r.nullFloat64).2
  | Op.bool => (r.bool).2
  | Op.nullBool => (r.nullBool).2

/-- State after a sequence of cursor operations. -/
def Rows.steps (r : Rows) : List Op → Rows
  | [] => r
  | op :: ops => (r.step op).steps ops

/-- The current (next unread) column of the cursor, as the typed
accessors see it: its string view and NULL flag. -/
def Rows.curCol (r : Rows) : String × Bool :=
  let (value, _, null) := readRowValue r.packet r.offset
  (bytesToString value, null)

/-- The column parse function the given operation applies (none for
`next` and the raw/string accessors, which have no parse step). -/
def Op.colParseErr : Op → Option (String → Option NumError)
  | Op.next | Op.bytes | Op.nullBytes | Op.string | Op.nullString => none
  | Op.int | Op.nullInt => some fun s => (intCol s).2
  | Op.int8 | Op.nullInt8 => some fun s => (int8Col s).2
  | Op.int16 | Op.nullInt16 => some fun s => (int16Col s).2
  | Op.int32 | Op.nullInt32 => some fun s => (int32Col s).2
  | Op.int64 | Op.nullInt64 => some fun s => (int64Col s).2
  | Op.float32 | Op.nullFloat32 => some fun s => (float32Col s).2
  | Op.float64 | Op.nullFloat64 => some fun s => (float64Col s).2
  | Op.bool | Op.nullBool => some fun s => (boolCol s).2

/-- The new error, if any, that one operation on state `r` produces:
`next` can surface a Row-Source error (only when the cursor is live);
a typed accessor can surface a conversion error of the current non-NULL
column; raw/string accessors never produce one. -/
def opNewError (r : Rows) : Op → Option GoError
  | Op.next =>
    if r.eof then none
    else if r.err ≠ none then none
    else ((r.resultSet.row).1).2
  | op =>
    match op.colParseErr with
    | none => none
    | some q =>
      let (s, null) := r.curCol
      if null then none else (q s).map GoError.num

/-- A cursor is dead when the stream has ended or an error is latched:
exactly the states in which `Next()` refuses to fetch. -/
def Rows.dead (r : Rows) : Prop := r.eof = true ∨ r.err ≠ none

/-- Results of `n` successive `Next()` calls. -/
def Rows.nextResults (r : Rows) : Nat → List Bool
  | 0 => []
  | n + 1 => ((r.next).1) :: (((r.next).2).nextResults n)

/-- Cursor state after `n` successive `Next()` calls. -/
def Rows.nextIter (r : Rows) : Nat → Rows
  | 0 => r
  | n + 1 => ((r.next).2).nextIter n

/-- Exact value of a nonempty all-digit string (spec-side semantics,
used to state the overflow claim). -/
def decDigits (ds : List Char) : Option Nat :=
  if ds ≠ [] ∧ ds.all Char.isDigit then some (digitsVal ds) else none

/-- Exact mathematical value of a decimal numeral: an optional single
leading sign followed by a nonempty digit string. -/
def decValue (s : String) : Option Int :=
  match s.data with
  | [] => none
  | c :: cs =>
    if c = '+' then (decDigits cs).map fun n => (n : Int)
    else if c = '-' then (decDigits cs).map fun n => -(n : Int)
    else (decDigits (c :: cs)).map fun n => (n : Int)

/-- A one-row cursor whose loaded row has the two text columns
`"abc"` and `"xyz"` (each length-prefixed), nothing latched yet. -/
def twoBadColsRows : Rows :=
  ⟨⟨[], none⟩, [3, 97, 98, 99, 3, 120, 121, 122], 0, false, none⟩

/-- A one-row cursor whose loaded row has the single text column
`"300"`, nothing latched yet. -/
def col300Rows : Rows := ⟨⟨[], none⟩, [3, 51, 48, 48], 0, false, none⟩

/-- A cursor positioned on a NULL column (0xFB sentinel) with a
previously latched stream error. -/
def nullColRows : Rows :=
  ⟨⟨[], none⟩, [251], 0, false, some (GoError.stream ("earlier failure"))⟩

/-- Whether an operation is a numeric or boolean accessor — exactly the
operations whose body has a parse step. -/
def Op.isNumBool : Op → Bool
  | Op.int | Op.nullInt | Op.int8 | Op.nullInt8 | Op.int16 | Op.nullInt16
  | Op.int32 | Op.nullInt32 | Op.int64 | Op.nullInt64
  | Op.float32 | Op.nullFloat32 | Op.float64 | Op.nullFloat64
  | Op.bool | Op.nullBool => true
  | _ => false

/-- A fresh cursor over one row whose three columns are the text values
`"42"`, NULL, `"3.14"`. -/
def c9rows : Rows := freshRows [[2, 52, 50, 251, 4, 51, 46, 49, 52]] none

/-- The error state after one operation: a newly produced error
overwrites the latched one (`r.err = err` in the source), otherwise the
old value stays. -/
def latchAfter (r : Rows) (op : Op) : Option GoError :=
  match opNewError r op with
  | some e => some e
  | none => r.err

theorem nullBytes_eq (r : Rows) :
    r.nullBytes = (((readRowValue r.packet r.offset).1, (readRowValue r.packet r.offset).2.2),
      { r with offset := (readRowValue r.packet r.offset).2.1 }) := by
  rcases hrv : readRowValue r.packet r.offset with ⟨v, o, nl⟩
  simp [Rows.nullBytes, hrv]

theorem bytes_eq (r : Rows) :
    r.bytes = ((readRowValue r.packet r.offset).1,
      { r with offset := (readRowValue r.packet r.offset).2.1 }) := by
  rcases hrv : readRowValue r.packet r.offset with ⟨v, o, nl⟩
  simp [Rows.bytes, hrv]

theorem nullString_eq (r : Rows) :
    r.nullString = (r.curCol, { r with offset := (readRowValue r.packet r.offset).2.1 }) := by
  rcases hrv : readRowValue r.packet r.offset with ⟨v, o, nl⟩
  simp [Rows.nullString, Rows.curCol, nullBytes_eq, hrv]

theorem string_eq (r : Rows) :
    r.string = ((r.curCol).1, { r with offset := (readRowValue r.packet r.offset).2.1 }) := by
  rcases hrv : readRowValue r.packet r.offset with ⟨v, o, nl⟩
  simp [Rows.string, Rows.curCol, bytes_eq, hrv]

theorem readConv_snd (r : Rows) {α : Type} (p : String → α × Option NumError) (z : α) :
    (r.readConv p z).2 =
      { r with offset := (readRowValue r.packet r.offset).2.1,
               err := match (if (r.curCol).2 then none
                             else ((p (r.curCol).1).2).map GoError.num) with
                      | some e => some e
                      | none => r.err } := by
  rcases hrv : readRowValue r.packet r.offset with ⟨v, o, nl⟩
  rcases hp : p (bytesToString v) with ⟨num, perr⟩
  cases nl <;> cases perr <;>
    simp [Rows.readConv, nullString_eq, Rows.curCol, hrv, hp]

theorem readConv_fst (r : Rows) {α : Type} (p : String → α × Option NumError) (z : α) :
    (r.readConv p z).1 =
      if (r.curCol).2 then (z, true) else ((p (r.curCol).1).1, false) := by
  rcases hrv : readRowValue r.packet r.offset with ⟨v, o, nl⟩
  rcases hp : p (bytesToString v) with ⟨num, perr⟩
  cases nl <;> cases perr <;>
    simp [Rows.readConv, nullString_eq, Rows.curCol, hrv, hp]

theorem int_snd (r : Rows) : (r.int).2 = (r.nullInt).2 := by
  unfold Rows.int; rcases h : r.nullInt with ⟨⟨n, b⟩, r1⟩; simp [h]

theorem int8_snd (r : Rows) : (r.int8).2 = (r.nullInt8).2 := by
  unfold Rows.int8; rcases h : r.nullInt8 with ⟨⟨n, b⟩, r1⟩; simp [h]

theorem int16_snd (r : Rows) : (r.int16).2 = (r.nullInt16).2 := by
  unfold Rows.int16; rcases h : r.nullInt16 with ⟨⟨n, b⟩, r1⟩; simp [h]

theorem int32_snd (r : Rows) : (r.int32).2 = (r.nullInt32).2 := by
  unfold Rows.int32; rcases h : r.nullInt32 with ⟨⟨n, b⟩, r1⟩; simp [h]

theorem int64_snd (r : Rows) : (r.int64).2 = (r.nullInt64).2 := by
  unfold Rows.int64; rcases h : r.nullInt64 with ⟨⟨n, b⟩, r1⟩; simp [h]

theorem float32_snd (r : Rows) : (r.float32).2 = (r.nullFloat32).2 := by
  unfold Rows.float32; rcases h : r.nullFloat32 with ⟨⟨n, b⟩, r1⟩; simp [h]

theorem float64_snd (r : Rows) : (r.float64).2 = (r.nullFloat64).2 := by
  unfold Rows.float64; rcases h : r.nullFloat64 with ⟨⟨n, b⟩, r1⟩; simp [h]

theorem bool_snd (r : Rows) : (r.bool).2 = (r.nullBool).2 := by
  unfold Rows.bool; rcases h : r.nullBool with ⟨⟨n, b⟩, r1⟩; simp [h]

/-- Master structural lemma for the 20 accessor operations: each one
advances `offset` to the decoder's next offset and updates `err` exactly
when a new conversion error is produced, leaving every other field
alone. -/
theorem step_accessor (r : Rows) (op : Op) (h : op ≠ Op.next) :
    r.step op = { r with offset := (readRowValue r.packet r.offset).2.1,
                         err := latchAfter r op } := by
  rcases hc : r.curCol with ⟨s, nl⟩
  cases op with
  | next => exact absurd rfl h
  | bytes => simp [Rows.step, bytes_eq, latchAfter, opNewError, Op.colParseErr]
  | nullBytes => simp [Rows.step, nullBytes_eq, latchAfter, opNewError, Op.colParseErr]
  | string => simp [Rows.step, string_eq, latchAfter, opNewError, Op.colParseErr]
  | nullString => simp [Rows.step, nullString_eq, latchAfter, opNewError, Op.colParseErr]
  | int => simp [Rows.step, int_snd, Rows.nullInt, readConv_snd, latchAfter, opNewError,
      Op.colParseErr, hc]
  | nullInt => simp [Rows.step, Rows.nullInt, readConv_snd, latchAfter, opNewError,
      Op.colParseErr, hc]
  | int8 => simp [Rows.step, int8_snd, Rows.nullInt8, readConv_snd, latchAfter, opNewError,
      Op.colParseErr, hc]
  | nullInt8 => simp [Rows.step, Rows.nullInt8, readConv_snd, latchAfter, opNewError,
      Op.colParseErr, hc]
  | int16 => simp [Rows.step, int16_snd, Rows.nullInt16, readConv_snd, latchAfter, opNewError,
      Op.colParseErr, hc]
  | nullInt16 => simp [Rows.step, Rows.nullInt16, readConv_snd, latchAfter, opNewError,
      Op.colParseErr, hc]
  | int32 => simp [Rows.step, int32_snd, Rows.nullInt32, readConv_snd, latchAfter, opNewError,
      Op.colParseErr, hc]
  | nullInt32 => simp [Rows.step, Rows.nullInt32, readConv_snd, latchAfter, opNewError,
      Op.colParseErr, hc]
  | int64 => simp [Rows.step, int64_snd, Rows.nullInt64, readConv_snd, latchAfter, opNewError,
      Op.colParseErr, hc]
  | nullInt64 => simp [Rows.step, Rows.nullInt64, readConv_snd, latchAfter, opNewError,
      Op.colParseErr, hc]
  | float32 => simp [Rows.step, float32_snd, Rows.nullFloat32, readConv_snd, latchAfter,
      opNewError, Op.colParseErr, hc]
  | nullFloat32 => simp [Rows.step, Rows.nullFloat32, readConv_snd, latchAfter, opNewError,
      Op.colParseErr, hc]
  | float64 => simp [Rows.step, float64_snd, Rows.nullFloat64, readConv_snd, latchAfter,
      opNewError, Op.colParseErr, hc]
  | nullFloat64 => simp [Rows.step, Rows.nullFloat64, readConv_snd, latchAfter, opNewError,
      Op.colParseErr, hc]
  | bool => simp [Rows.step, bool_snd, Rows.nullBool, readConv_snd, latchAfter, opNewError,
      Op.colParseErr, hc]
  | nullBool => simp [Rows.step, Rows.nullBool, readConv_snd, latchAfter, opNewError,
      Op.colParseErr, hc]

theorem next_of_dead (r : Rows) (h : r.dead) : r.next = (false, r) := by
  rcases h with h | h
  · simp [Rows.next, h]
  · cases heof : r.eof <;> simp [Rows.next, heof, h]

theorem next_dead_after_false (r : Rows) (h : (r.next).1 = false) : ((r.next).2).dead := by
  revert h
  unfold Rows.next Rows.dead
  rcases heof : r.eof
  · rcases herr : r.err with _ | e
    · rcases hrow : r.resultSet.row with ⟨⟨p?, e?⟩, rs⟩
      rcases e? with _ | e
      · rcases p? with _ | p <;> simp [hrow]
      · simp [hrow]
    · simp [herr]
  · simp [heof]

theorem next_err_of_dead (r : Rows) (h : r.dead) : ((r.next).2).err = r.err := by
  rw [next_of_dead r h]

/-- Accessors preserve deadness; `next` on a dead cursor is inert. -/
theorem step_preserves_dead (r : Rows) (op : Op) (h : r.dead) : (r.step op).dead := by
  by_cases hop : op = Op.next
  · subst hop
    show ((r.next).2).dead
    rw [next_of_dead r h]
    exact h
  · rw [step_accessor r op hop]
    rcases h with h | h
    · exact Or.inl h
    · refine Or.inr ?_
      show latchAfter r op ≠ none
      unfold latchAfter
      rcases hn : opNewError r op with _ | e
      · exact h
      · simp

theorem steps_preserve_dead (r : Rows) (ops : List Op) (h : r.dead) : (r.steps ops).dead := by
  induction ops generalizing r with
  | nil => exact h
  | cons op ops ih => exact ih (r.step op) (step_preserves_dead r op h)

theorem next_false_of_dead (r : Rows) (h : r.dead) : (r.next).1 = false := by
  rw [next_of_dead r h]

theorem nextResults_dead (r : Rows) (h : r.dead) (n : Nat) :
    r.nextResults n = List.replicate n false := by
  induction n generalizing r with
  | zero => rfl
  | succ n ih =>
    show ((r.next).1) :: (((r.next).2).nextResults n) = _
    rw [next_of_dead r h]
    simp [List.replicate_succ, ih r h]

theorem next_live (r : Rows) (ps : List Packet) (term : Option GoError) (p : Packet)
    (rest : List Packet) (heof : r.eof = false) (herr : r.err = none)
    (hs : r.resultSet = ⟨ps, term⟩) (hps : ps = p :: rest) :
    r.next = (true, { r with resultSet := ⟨rest, term⟩, packet := p, offset := 0 }) := by
  subst hps
  simp [Rows.next, heof, herr, hs, ResultSet.row]

theorem next_live_end (r : Rows) (term : Option GoError) (heof : r.eof = false)
    (herr : r.err = none) (hs : r.resultSet = ⟨[], term⟩) :
    (r.next).1 = false ∧ ((r.next).2).dead ∧ ((r.next).2).err = term ∧
      ((r.next).2).eof = true := by
  rcases term with _ | e <;>
    simp [Rows.next, Rows.dead, heof, herr, hs, ResultSet.row]

theorem nextResults_live (n : Nat) (ps : List Packet) (term : Option GoError) (r : Rows)
    (heof : r.eof = false) (herr : r.err = none) (hs : r.resultSet = ⟨ps, term⟩) :
    r.nextResults n =
      List.replicate (min n ps.length) true ++ List.replicate (n - ps.length) false := by
  induction n generalizing ps r with
  | zero => simp [Rows.nextResults]
  | succ n ih =>
    show ((r.next).1) :: (((r.next).2).nextResults n) = _
    rcases ps with _ | ⟨p, rest⟩
    · rcases next_live_end r term heof herr hs with ⟨h1, h2, _⟩
      rw [h1, nextResults_dead _ h2 n]
      simp [List.replicate_succ]
    · rw [next_live r (p :: rest) term p rest heof herr hs rfl]
      have := ih rest { r with resultSet := ⟨rest, term⟩, packet := p, offset := 0 }
        heof herr rfl
      simp only [this]
      simp [List.replicate_succ, Nat.succ_min_succ, Nat.succ_sub_succ]

theorem nextIter_packet (i : Nat) (ps : List Packet) (term : Option GoError) (r : Rows)
    (heof : r.eof = false) (herr : r.err = none) (hs : r.resultSet = ⟨ps, term⟩)
    (hi : i < ps.length) :
    (r.nextIter (i + 1)).packet = ps.get ⟨i, hi⟩ := by
  induction i generalizing ps r with
  | zero =>
    rcases ps with _ | ⟨p, rest⟩
    · exact absurd hi (by simp)
    · show (((r.next).2).nextIter 0).packet = p
      rw [next_live r (p :: rest) term p rest heof herr hs rfl]
      rfl
  | succ i ih =>
    rcases ps with _ | ⟨p, rest⟩
    · exact absurd hi (by simp)
    · show (((r.next).2).nextIter (i + 1)).packet = _
      rw [next_live r (p :: rest) term p rest heof herr hs rfl]
      have hi' : i < rest.length := Nat.lt_of_succ_lt_succ hi
      rw [ih rest { r with resultSet := ⟨rest, term⟩, packet := p, offset := 0 }
        heof herr rfl hi']
      rfl

theorem foldl_digits_ge (acc : Nat) (ds : List Char) :
    acc ≤ ds.foldl (fun n c => n * 10 + (c.toNat - 48)) acc := by
  induction ds generalizing acc with
  | nil => exact Nat.le_refl acc
  | cons c cs ih =>
    rw [List.foldl_cons]
    exact le_trans (by omega) (ih (acc * 10 + (c.toNat - 48)))

theorem goParseUintLoop_ok (maxVal : Nat) (ds : List Char) (acc : Nat)
    (hd : ∀ c ∈ ds, c.isDigit)
    (hle : ds.foldl (fun n c => n * 10 + (c.toNat - 48)) acc ≤ maxVal) :
    goParseUintLoop maxVal acc ds =
      Except.ok (ds.foldl (fun n c => n * 10 + (c.toNat - 48)) acc) := by
  induction ds generalizing acc with
  | nil => rfl
  | cons c cs ih =>
    have hc : c.isDigit := hd c (List.mem_cons_self c cs)
    have hge := foldl_digits_ge (acc * 10 + (c.toNat - 48)) cs
    rw [List.foldl_cons] at hle ⊢
    simp only [goParseUintLoop]
    rw [if_pos hc, if_neg (by omega)]
    exact ih _ (fun x hx => hd x (List.mem_cons_of_mem c hx)) hle

theorem goParseUintLoop_range (maxVal : Nat) (ds : List Char) (acc : Nat)
    (hd : ∀ c ∈ ds, c.isDigit) (hacc : acc ≤ maxVal)
    (hgt : maxVal < ds.foldl (fun n c => n * 10 + (c.toNat - 48)) acc) :
    goParseUintLoop maxVal acc ds = Except.error ParseErr.range := by
  induction ds generalizing acc with
  | nil =>
    rw [List.foldl_nil] at hgt
    omega
  | cons c cs ih =>
    have hc : c.isDigit := hd c (List.mem_cons_self c cs)
    rw [List.foldl_cons] at hgt
    by_cases h1 : acc * 10 + (c.toNat - 48) > maxVal
    · simp only [goParseUintLoop]
      rw [if_pos hc, if_pos h1]
    · simp only [goParseUintLoop]
      rw [if_pos hc, if_neg h1]
      exact ih _ (fun x hx => hd x (List.mem_cons_of_mem c hx)) (by omega) hgt

theorem goParseUint64_ok (ds : List Char) (hne : ds ≠ []) (hd : ∀ c ∈ ds, c.isDigit)
    (hle : digitsVal ds ≤ 2 ^ 64 - 1) :
    goParseUint64 ds = Except.ok (digitsVal ds) := by
  unfold goParseUint64
  rw [if_neg hne]
  exact goParseUintLoop_ok _ ds 0 hd hle

theorem goParseUint64_range (ds : List Char) (hne : ds ≠ []) (hd : ∀ c ∈ ds, c.isDigit)
    (hgt : 2 ^ 64 - 1 < digitsVal ds) :
    goParseUint64 ds = Except.error ParseErr.range := by
  unfold goParseUint64
  rw [if_neg hne]
  exact goParseUintLoop_range _ ds 0 hd (by omega) hgt

theorem decDigits_some (ds : List Char) (n : Nat) (h : decDigits ds = some n) :
    ds ≠ [] ∧ (∀ c ∈ ds, c.isDigit) ∧ n = digitsVal ds := by
  unfold decDigits at h
  split_ifs at h with hcond
  · rcases hcond with ⟨hne, hall⟩
    refine ⟨hne, ?_, by injection h; omega⟩
    intro c hc
    exact List.all_eq_true.mp hall c hc

theorem goParseIntClamp_pos_range (cutoff un : Nat) (h : cutoff ≤ un) :
    goParseIntClamp false cutoff un = ((cutoff : Int) - 1, some ParseErr.range) := by
  simp [goParseIntClamp, h]

theorem goParseIntClamp_neg_range (cutoff un : Nat) (h : cutoff < un) :
    goParseIntClamp true cutoff un = (-(cutoff : Int), some ParseErr.range) := by
  simp [goParseIntClamp, h]

/-- Any error the clamp step reports is a range error, with the value
saturated at the width's boundary. -/
theorem goParseIntClamp_err (neg : Bool) (cutoff un : Nat) (pe : ParseErr)
    (h : (goParseIntClamp neg cutoff un).2 = some pe) :
    pe = ParseErr.range ∧
      ((goParseIntClamp neg cutoff un).1 = (cutoff : Int) - 1 ∨
        (goParseIntClamp neg cutoff un).1 = -(cutoff : Int)) := by
  unfold goParseIntClamp at *
  split_ifs at h ⊢ with h1 h2
  · injection h with h
    exact ⟨h.symm, Or.inl rfl⟩
  · injection h with h
    exact ⟨h.symm, Or.inr rfl⟩

/-- `goParseIntCore` either reports a syntax error with value 0, or ends
in the clamping step. -/
theorem goParseIntCore_cases (s : String) (b : Nat) :
    goParseIntCore s b = (0, some ParseErr.invalid) ∨
    ∃ neg un, goParseIntCore s b = goParseIntClamp neg (2 ^ (b - 1)) un := by
  unfold goParseIntCore
  rcases hds : s.data with _ | ⟨c, cs⟩
  · exact Or.inl rfl
  · by_cases h1 : c = '+'
    · simp only [h1, if_pos]
      rcases hu : goParseUint64 cs with pe | un
      · rcases pe <;> simp [hu]
      · simp [hu]
    · by_cases h2 : c = '-'
      · simp only [h1, h2, if_neg, if_pos, reduceIte]
        rcases hu : goParseUint64 cs with pe | un
        · rcases pe <;> simp [hu]
        · simp [hu]
      · simp only [h1, h2, reduceIte]
        rcases hu : goParseUint64 (c :: cs) with pe | un
        · rcases pe <;> simp [hu]
        · simp [hu]

/-- A syntax error from Go's `ParseInt` comes with value 0. -/
theorem goParseIntCore_invalid_val (s : String) (b : Nat)
    (h : (goParseIntCore s b).2 = some ParseErr.invalid) : (goParseIntCore s b).1 = 0 := by
  rcases goParseIntCore_cases s b with hc | ⟨neg, un, hc⟩
  · rw [hc]
  · rw [hc] at h
    rcases goParseIntClamp_err neg _ un _ h with ⟨hr, _⟩
    exact absurd hr.symm (by simp)

/-- A range error from Go's `ParseInt` comes with the value saturated at
the requested width's boundary (never silently wrapped). -/
theorem goParseIntCore_range_val (s : String) (b : Nat)
    (h : (goParseIntCore s b).2 = some ParseErr.range) :
    (goParseIntCore s b).1 = ((2 ^ (b - 1) : Nat) : Int) - 1 ∨
    (goParseIntCore s b).1 = -((2 ^ (b - 1) : Nat) : Int) := by
  rcases goParseIntCore_cases s b with hc | ⟨neg, un, hc⟩
  · rw [hc] at h
    exact absurd h (by simp)
  · rw [hc] at h ⊢
    exact (goParseIntClamp_err neg _ un _ h).2

/-- A decimal numeral whose exact value exceeds the signed range of the
requested bit width makes Go's `ParseInt` report a range error. -/
theorem parseIntCore_range_of_overflow (s : String) (v : Int) (b : Nat)
    (hb : 0 < b) (hb64 : b ≤ 64) (hv : decValue s = some v)
    (hover : ((2 ^ (b - 1) : Nat) : Int) ≤ v ∨ v < -((2 ^ (b - 1) : Nat) : Int)) :
    (goParseIntCore s b).2 = some ParseErr.range := by
  have hcut1 : (1 : Nat) ≤ 2 ^ (b - 1) := Nat.one_le_two_pow
  have hcut63 : (2 : Nat) ^ (b - 1) ≤ 2 ^ 63 := Nat.pow_le_pow_right (by norm_num) (by omega)
  have hm63 : (2 : Nat) ^ 63 ≤ 2 ^ 64 - 1 := by norm_num
  unfold decValue at hv
  unfold goParseIntCore
  rcases hds : s.data with _ | ⟨c, cs⟩
  · rw [hds] at hv
    exact absurd hv (by simp)
  · rw [hds] at hv
    by_cases h1 : c = '+'
    · simp only [h1, reduceIte] at hv
      simp only [h1, reduceIte]
      rcases hdd : decDigits cs with _ | n
      · rw [hdd] at hv
        exact absurd hv (by simp)
      · rw [hdd] at hv
        simp at hv
        obtain ⟨hne, hd, hnval⟩ := decDigits_some cs n hdd
        set C : Nat := 2 ^ (b - 1) with hC
        have hcn : C ≤ n := by rcases hover with hov | hov <;> omega
        by_cases hbig : digitsVal cs ≤ 2 ^ 64 - 1
        · rw [goParseUint64_ok cs hne hd hbig]
          show (goParseIntClamp false C (digitsVal cs)).2 = some ParseErr.range
          rw [goParseIntClamp_pos_range _ _ (by omega)]
        · rw [goParseUint64_range cs hne hd (by omega)]
          show (goParseIntClamp false C (2 ^ 64 - 1)).2 = some ParseErr.range
          rw [goParseIntClamp_pos_range _ _ (by omega)]
    · by_cases h2 : c = '-'
      · simp only [h1, h2, reduceIte] at hv
        simp only [h1, h2, reduceIte, Char.reduceEq]
        rcases hdd : decDigits cs with _ | n
        · rw [hdd] at hv
          exact absurd hv (by simp)
        · rw [hdd] at hv
          simp at hv
          obtain ⟨hne, hd, hnval⟩ := decDigits_some cs n hdd
          set C : Nat := 2 ^ (b - 1) with hC
          have hcn : C < n := by rcases hover with hov | hov <;> omega
          by_cases hbig : digitsVal cs ≤ 2 ^ 64 - 1
          · rw [goParseUint64_ok cs hne hd hbig]
            show (goParseIntClamp true C (digitsVal cs)).2 = some ParseErr.range
            rw [goParseIntClamp_neg_range _ _ (by omega)]
          · rw [goParseUint64_range cs hne hd (by omega)]
            show (goParseIntClamp true C (2 ^ 64 - 1)).2 = some ParseErr.range
            rw [goParseIntClamp_neg_range _ _ (by omega)]
      · simp only [h1, h2, reduceIte] at hv
        simp only [h1, h2, reduceIte, Char.reduceEq]
        rcases hdd : decDigits (c :: cs) with _ | n
        · rw [hdd] at hv
          exact absurd hv (by simp)
        · rw [hdd] at hv
          simp at hv
          obtain ⟨hne, hd, hnval⟩ := decDigits_some (c :: cs) n hdd
          set C : Nat := 2 ^ (b - 1) with hC
          have hcn : C ≤ n := by rcases hover with hov | hov <;> omega
          by_cases hbig : digitsVal (c :: cs) ≤ 2 ^ 64 - 1
          · rw [goParseUint64_ok (c :: cs) hne hd hbig]
            show (goParseIntClamp false C (digitsVal (c :: cs))).2 = some ParseErr.range
            rw [goParseIntClamp_pos_range _ _ (by omega)]
          · rw [goParseUint64_range (c :: cs) hne hd (by omega)]
            show (goParseIntClamp false C (2 ^ 64 - 1)).2 = some ParseErr.range
            rw [goParseIntClamp_pos_range _ _ (by omega)]

/-- The Value Decoder returns empty value bytes on a NULL column
(spec §4.3 contract, satisfied by the model). -/
theorem readRowValue_null_val (p : Packet) (o : Nat)
    (h : (readRowValue p o).2.2 = true) : (readRowValue p o).1 = [] := by
  unfold readRowValue at h ⊢
  rcases hb : p.get? o with _ | b
  · rw [hb] at h
  · rw [hb] at h
    by_cases h251 : b = 251
    · simp [h251]
    · simp [h251] at h

/-- The Value Decoder strictly advances the offset at any in-bounds
position. -/
theorem readRowValue_advance (p : Packet) (o : Nat) (h : o < p.length) :
    o < (readRowValue p o).2.1 := by
  unfold readRowValue
  rcases hb : p.get? o with _ | b
  · rw [List.get?_eq_none] at hb
    omega
  · by_cases h251 : b = 251
    · simp [h251]
    · simp only [h251, reduceIte]
      split_ifs <;> omega

/-- Error-state characterization of every cursor operation: the new
error state is the operation's newly produced error if there is one
(a failing conversion or a Row-Source failure overwrites `err`),
and the old latched value otherwise. -/
theorem step_err (r : Rows) (op : Op) : (r.step op).err = latchAfter r op := by
  by_cases hop : op = Op.next
  · subst hop
    show ((r.next).2).err = latchAfter r Op.next
    unfold latchAfter opNewError
    rcases heof : r.eof
    · rcases herr : r.err with _ | e
      · rcases hrow : r.resultSet.row with ⟨⟨p?, e?⟩, rs⟩
        rcases e? with _ | e
        · rcases p? with _ | p <;> simp [Rows.next, heof, herr, hrow]
        · simp [Rows.next, heof, herr, hrow]
      · simp [Rows.next, heof, herr]
    · simp [Rows.next, heof]
  · rw [step_accessor r op hop]

theorem int_fst (r : Rows) : (r.int).1 = ((r.nullInt).1).1 := by
  unfold Rows.int; rcases h : r.nullInt with ⟨⟨n, b⟩, r1⟩; simp [h]

theorem int8_fst (r : Rows) : (r.int8).1 = ((r.nullInt8).1).1 := by
  unfold Rows.int8; rcases h : r.nullInt8 with ⟨⟨n, b⟩, r1⟩; simp [h]

theorem goParseInt_eq (s : String) (b : Nat) :
    goParseInt s b = ((goParseIntCore s b).1,
      ((goParseIntCore s b).2).map fun pe => (⟨"ParseInt", s, pe⟩ : NumError)) := by
  unfold goParseInt; rcases h : goParseIntCore s b with ⟨v, e⟩; simp [h]

theorem int8Col_eq (s : String) :
    int8Col s = (toInt8 (goParseIntCore s 8).1,
      ((goParseIntCore s 8).2).map fun pe => (⟨"ParseInt", s, pe⟩ : NumError)) := by
  unfold int8Col
  rw [goParseInt_eq]

theorem int16Col_eq (s : String) :
    int16Col s = (toInt16 (goParseIntCore s 16).1,
      ((goParseIntCore s 16).2).map fun pe => (⟨"ParseInt", s, pe⟩ : NumError)) := by
  unfold int16Col
  rw [goParseInt_eq]

/-- C1: the spec claims first-error-wins latching — once any error is
latched, no subsequent operation ever replaces it with a different
error, and `LastError()` returns the first error.  The code overwrites
`r.err` on every failing conversion (`r.err = err`, src/query.go:106),
so the claim is FALSE: after latching the `Atoi` error for `"abc"`, a
second failing accessor call replaces it with the `Atoi` error for
`"xyz"`, a different error. -/
theorem C1_counterexample :
    ((twoBadColsRows.nullInt).2).lastError =
        some (GoError.num ⟨"Atoi", "abc", ParseErr.invalid⟩)
  ∧ ((((twoBadColsRows.nullInt).2).nullInt).2).lastError =
        some (GoError.num ⟨"Atoi", "xyz", ParseErr.invalid⟩)
  ∧ GoError.num (⟨"Atoi", "abc", ParseErr.invalid⟩ : NumError) ≠
        GoError.num ⟨"Atoi", "xyz", ParseErr.invalid⟩ := by
  decide

/-- C1 (amended): error latching is last-error-wins for conversion
errors: an operation that produces no new error — `Next()` (which checks
`r.err` and refuses to fetch once an error is latched), a raw/string
accessor, a NULL column, or a successful parse — leaves `LastError()`
unchanged, while a failing conversion in any typed accessor (or a
Row-Source failure during a live `Next()`) overwrites the latched error
with the new one.  `LastError()` thus returns the most recently latched
error, which is the first one only if no later conversion failed. -/
theorem C1_latching (r : Rows) (op : Op) :
    ((r.step op).lastError = latchAfter r op)
  ∧ (∀ e, r.err = some e → opNewError r op = none →
      (r.step op).lastError = some e) := by
  refine ⟨step_err r op, ?_⟩
  intro e he hn
  show (r.step op).err = some e
  rw [step_err r op]
  unfold latchAfter
  rw [hn, he]

/-- Witness for C1 (amended): with the `Atoi` error for `"abc"` latched,
a `Next()` call leaves `LastError()` unchanged. -/
theorem C1_latching_witness :
    (((twoBadColsRows.nullInt).2).step Op.next).lastError =
      some (GoError.num ⟨"Atoi", "abc", ParseErr.invalid⟩) :=
  (C1_latching ((twoBadColsRows.nullInt).2) Op.next).2
    (GoError.num ⟨"Atoi", "abc", ParseErr.invalid⟩) (by decide) (by decide)

/-- C2: for every sequence of rows produced by the Row Source, `Next()`
returns true exactly once per row, in order (the i-th true loads the
i-th packet), then false forever — whether the stream ended cleanly or
with an error; and once `Next()` has returned false, it keeps returning
false after any further sequence of accessor calls and advances. -/
theorem C2_advance_per_row (ps : List Packet) (term : Option GoError) (n : Nat)
    (r : Rows) (h : (r.next).1 = false) (ops : List Op) :
    ((freshRows ps term).nextResults n =
      List.replicate (min n ps.length) true ++ List.replicate (n - ps.length) false)
  ∧ ((((r.next).2).steps ops).next).1 = false
  ∧ (∀ i (hi : i < ps.length),
      ((freshRows ps term).nextIter (i + 1)).packet = ps.get ⟨i, hi⟩) := by
  refine ⟨nextResults_live n ps term _ rfl rfl rfl, ?_, ?_⟩
  · exact next_false_of_dead _ (steps_preserve_dead _ ops (next_dead_after_false r h))
  · intro i hi
    exact nextIter_packet i ps term _ rfl rfl rfl hi

/-- Witness for C2: a one-row clean stream yields `[true, false, false]`
over three advances and loads the single packet; a cursor whose stream
fails on the first fetch returns false and stays false after an `Int()`
read and another advance. -/
theorem C2_advance_per_row_witness :
    ((freshRows [[1, 65]] none).nextResults 3 =
      List.replicate (min 3 [[1, 65]].length) true ++
        List.replicate (3 - [[1, 65]].length) false)
  ∧ (((((freshRows [] (some (GoError.stream ("broken pipe")))).next).2).steps
      [Op.int, Op.next]).next).1 = false
  ∧ (∀ i (hi : i < [[1, 65]].length),
      ((freshRows [[1, 65]] none).nextIter (i + 1)).packet = [[1, 65]].get ⟨i, hi⟩) :=
  C2_advance_per_row [[1, 65]] none 3
    (freshRows [] (some (GoError.stream ("broken pipe")))) (by decide) [Op.int, Op.next]

/-- C3: the spec claims a failing conversion returns the zero value of
`T` with `isNull = false`.  FALSE for range errors: Go's `ParseInt`
saturates at the width's boundary, so reading `"300"` through the 8-bit
accessor returns 127 (not 0) with `isNull = false`, while latching the
range error. -/
theorem C3_counterexample :
    (col300Rows.nullInt8).1 = (127, false)
  ∧ ((127 : Int) = 0 → False)
  ∧ ((col300Rows.nullInt8).2).lastError =
      some (GoError.num ⟨"ParseInt", "300", ParseErr.range⟩) := by
  decide

/-- C3 (amended): for a non-NULL column whose text fails to parse, the
8-bit nullable accessor returns `isNull = false` and latches the parse
error; the returned value is the zero value on a syntax error, but the
saturated boundary value (127 or -128) on a range error; the plain
accessor returns exactly the nullable accessor's value, and returns the
zero value on a NULL column. -/
theorem C3_parse_error_values (r : Rows) (s : String) (e : NumError)
    (hcol : r.curCol = (s, false)) (he : (goParseInt s 8).2 = some e) :
    ((r.nullInt8).1.2 = false)
  ∧ (((r.nullInt8).2).lastError = some (GoError.num e))
  ∧ (e.err = ParseErr.invalid → (r.nullInt8).1.1 = 0)
  ∧ (e.err = ParseErr.range → ((r.nullInt8).1.1 = 127 ∨ (r.nullInt8).1.1 = -128))
  ∧ ((r.int8).1 = (r.nullInt8).1.1)
  ∧ (∀ r' : Rows, (r'.curCol).2 = true → (r'.int8).1 = 0) := by
  rw [goParseInt_eq] at he
  rcases hcore : (goParseIntCore s 8).2 with _ | pe
  · rw [hcore] at he
    exact absurd he (by simp)
  · rw [hcore] at he
    have hee : e = ⟨"ParseInt", s, pe⟩ := by
      simp only [Option.map_some] at he
      injection he with h
      exact h.symm
    have hval : (r.nullInt8).1 = ((int8Col s).1, false) := by
      rw [Rows.nullInt8, readConv_fst, hcol]
      simp
    have herr : ((r.nullInt8).2).lastError = some (GoError.num e) := by
      show ((r.nullInt8).2).err = some (GoError.num e)
      rw [Rows.nullInt8, readConv_snd]
      simp [hcol, int8Col_eq, hcore, hee]
    refine ⟨by rw [hval], herr, ?_, ?_, int8_fst r, ?_⟩
    · intro hinv
      have hpe : pe = ParseErr.invalid := by rw [hee] at hinv; exact hinv
      have h0 := goParseIntCore_invalid_val s 8 (by rw [hcore, hpe])
      rw [hval]
      simp only [int8Col_eq, h0]
      decide
    · intro hrng
      have hpe : pe = ParseErr.range := by rw [hee] at hrng; exact hrng
      have h0 := goParseIntCore_range_val s 8 (by rw [hcore, hpe])
      rw [hval]
      rcases h0 with h0 | h0 <;> simp only [int8Col_eq, h0]
      · left; decide
      · right; decide
    · intro r' hr'
      rw [int8_fst r', Rows.nullInt8, readConv_fst, if_pos hr']

/-- Witness for C3 (amended) at the concrete column `"300"`. -/
theorem C3_parse_error_values_witness :
    ((col300Rows.nullInt8).1.2 = false)
  ∧ (((col300Rows.nullInt8).2).lastError =
      some (GoError.num ⟨"ParseInt", "300", ParseErr.range⟩))
  ∧ ((⟨"ParseInt", "300", ParseErr.range⟩ : NumError).err = ParseErr.invalid →
      (col300Rows.nullInt8).1.1 = 0)
  ∧ ((⟨"ParseInt", "300", ParseErr.range⟩ : NumError).err = ParseErr.range →
      ((col300Rows.nullInt8).1.1 = 127 ∨ (col300Rows.nullInt8).1.1 = -128))
  ∧ ((col300Rows.int8).1 = (col300Rows.nullInt8).1.1)
  ∧ (∀ r' : Rows, (r'.curCol).2 = true → (r'.int8).1 = 0) :=
  C3_parse_error_values col300Rows "300" ⟨"ParseInt", "300", ParseErr.range⟩
    (by decide) (by decide)

theorem curCol_snd (r : Rows) : (r.curCol).2 = (readRowValue r.packet r.offset).2.2 := by
  unfold Rows.curCol
  rcases hrv : readRowValue r.packet r.offset with ⟨v, o, nl⟩
  rfl

/-- A NULL column reads as the empty string with the NULL flag set. -/
theorem curCol_null (r : Rows) (h : (r.curCol).2 = true) : r.curCol = ("", true) := by
  have hrv2 : (readRowValue r.packet r.offset).2.2 = true := by
    rw [← curCol_snd]; exact h
  have hval : (readRowValue r.packet r.offset).1 = [] :=
    readRowValue_null_val _ _ hrv2
  unfold Rows.curCol
  rcases hrv : readRowValue r.packet r.offset with ⟨v, o, nl⟩
  rw [hrv] at hrv2 hval
  simp only at hrv2 hval
  rw [hrv2, hval]
  rfl

/-- On a NULL column every typed accessor returns `(zero, true)` and
leaves the latched error unchanged. -/
theorem readConv_null_parts (r : Rows) {α : Type} (p : String → α × Option NumError)
    (z : α) (h : (r.curCol).2 = true) :
    (r.readConv p z).1 = (z, true) ∧ ((r.readConv p z).2).err = r.err := by
  constructor
  · rw [readConv_fst, if_pos h]
  · rw [readConv_snd]
    simp [h]

/-- C4: for every NULL column and every supported type, the nullable
accessor returns the type's zero value with `isNull = true`, attempts no
conversion, and leaves `LastError()` unchanged. -/
theorem C4_null_columns (r : Rows) (h : (r.curCol).2 = true) :
    ((r.nullBytes).1 = ([], true)) ∧ (((r.nullBytes).2).lastError = r.lastError)
  ∧ ((r.nullString).1 = ("", true)) ∧ (((r.nullString).2).lastError = r.lastError)
  ∧ ((r.nullInt).1 = (0, true)) ∧ (((r.nullInt).2).lastError = r.lastError)
  ∧ ((r.nullInt8).1 = (0, true)) ∧ (((r.nullInt8).2).lastError = r.lastError)
  ∧ ((r.nullInt16).1 = (0, true)) ∧ (((r.nullInt16).2).lastError = r.lastError)
  ∧ ((r.nullInt32).1 = (0, true)) ∧ (((r.nullInt32).2).lastError = r.lastError)
  ∧ ((r.nullInt64).1 = (0, true)) ∧ (((r.nullInt64).2).lastError = r.lastError)
  ∧ ((r.nullFloat32).1 = (0, true)) ∧ (((r.nullFloat32).2).lastError = r.lastError)
  ∧ ((r.nullFloat64).1 = (0, true)) ∧ (((r.nullFloat64).2).lastError = r.lastError)
  ∧ ((r.nullBool).1 = (false, true)) ∧ (((r.nullBool).2).lastError = r.lastError) := by
  have hrv2 : (readRowValue r.packet r.offset).2.2 = true := by
    rw [← curCol_snd]; exact h
  have hval : (readRowValue r.packet r.offset).1 = [] :=
    readRowValue_null_val _ _ hrv2
  refine ⟨?_, ?_, ?_, ?_, ?_, ?_, ?_, ?_, ?_, ?_, ?_, ?_, ?_, ?_, ?_, ?_, ?_, ?_, ?_, ?_⟩
  · simp [nullBytes_eq, hval, hrv2]
  · simp [nullBytes_eq, Rows.lastError]
  · rw [nullString_eq]
    exact curCol_null r h
  · simp [nullString_eq, Rows.lastError]
  · rw [Rows.nullInt]
    exact (readConv_null_parts r intCol 0 h).1
  · show ((r.nullInt).2).err = r.err
    rw [Rows.nullInt]
    exact (readConv_null_parts r intCol 0 h).2
  · rw [Rows.nullInt8]
    exact (readConv_null_parts r int8Col 0 h).1
  · show ((r.nullInt8).2).err = r.err
    rw [Rows.nullInt8]
    exact (readConv_null_parts r int8Col 0 h).2
  · rw [Rows.nullInt16]
    exact (readConv_null_parts r int16Col 0 h).1
  · show ((r.nullInt16).2).err = r.err
    rw [Rows.nullInt16]
    exact (readConv_null_parts r int16Col 0 h).2
  · rw [Rows.nullInt32]
    exact (readConv_null_parts r int32Col 0 h).1
  · show ((r.nullInt32).2).err = r.err
    rw [Rows.nullInt32]
    exact (readConv_null_parts r int32Col 0 h).2
  · rw [Rows.nullInt64]
    exact (readConv_null_parts r int64Col 0 h).1
  · show ((r.nullInt64).2).err = r.err
    rw [Rows.nullInt64]
    exact (readConv_null_parts r int64Col 0 h).2
  · rw [Rows.nullFloat32]
    exact (readConv_null_parts r float32Col 0 h).1
  · show ((r.nullFloat32).2).err = r.err
    rw [Rows.nullFloat32]
    exact (readConv_null_parts r float32Col 0 h).2
  · rw [Rows.nullFloat64]
    exact (readConv_null_parts r float64Col 0 h).1
  · show ((r.nullFloat64).2).err = r.err
    rw [Rows.nullFloat64]
    exact (readConv_null_parts r float64Col 0 h).2
  · rw [Rows.nullBool]
    exact (readConv_null_parts r boolCol false h).1
  · show ((r.nullBool).2).err = r.err
    rw [Rows.nullBool]
    exact (readConv_null_parts r boolCol false h).2

/-- Witness for C4 on a concrete NULL column with an error latched:
the nullable bytes accessor yields `([], true)` and the error stays. -/
theorem C4_null_columns_witness :
    ((nullColRows.nullBytes).1 = ([], true)) ∧
      ((nullColRows.nullBytes).2).lastError = nullColRows.lastError :=
  ⟨(C4_null_columns nullColRows (by decide)).1,
   (C4_null_columns nullColRows (by decide)).2.1⟩

/-- C5: only a Row-Source failure during `Next()` sets both the latched
error and the stream-ended flag (and returns false); accessors never
touch `eof`, so after a conversion error the stream-ended flag is still
false even though `Next()` now returns false. -/
theorem C5_stream_end_on_transport_only (r : Rows) (e : GoError) (op : Op)
    (hop : op ≠ Op.next) :
    ((r.eof = false → r.err = none → r.resultSet = ⟨[], some e⟩ →
        (r.next).1 = false ∧ ((r.next).2).err = some e ∧ ((r.next).2).eof = true))
  ∧ ((r.step op).eof = r.eof)
  ∧ ((r.eof = false → (r.step op).err ≠ none →
        (r.step op).eof = false ∧ ((r.step op).next).1 = false)) := by
  refine ⟨?_, ?_, ?_⟩
  · intro heof herr hs
    have h := next_live_end r (some e) heof herr hs
    exact ⟨h.1, h.2.2.1, h.2.2.2⟩
  · rw [step_accessor r op hop]
  · intro heof herrne
    constructor
    · rw [step_accessor r op hop]
      exact heof
    · exact next_false_of_dead _ (Or.inr herrne)

/-- Witness for C5: a stream failing on its first fetch latches the
error and ends the stream; an accessor that latches a parse error on a
live cursor leaves `eof` false while `Next()` returns false. -/
theorem C5_stream_end_witness :
    (((freshRows [] (some (GoError.stream ("io")))).next).1 = false
      ∧ (((freshRows [] (some (GoError.stream ("io")))).next).2).err =
          some (GoError.stream ("io"))
      ∧ (((freshRows [] (some (GoError.stream ("io")))).next).2).eof = true)
  ∧ ((twoBadColsRows.step Op.nullInt).eof = false
      ∧ ((twoBadColsRows.step Op.nullInt).next).1 = false) :=
  ⟨(C5_stream_end_on_transport_only (freshRows [] (some (GoError.stream ("io"))))
      (GoError.stream ("io")) Op.nullInt (by decide)).1 rfl rfl rfl,
   (C5_stream_end_on_transport_only twoBadColsRows
      (GoError.stream ("io")) Op.nullInt (by decide)).2.2 rfl (by decide)⟩

/-- C6: every accessor call invokes the Value Decoder exactly once on
the current (packet, offset), stores the decoder's next offset, and at
any in-bounds offset strictly advances, so two consecutive accessor
calls without an intervening `Next()` read columns at two distinct,
consecutive offsets and never re-read the same column. -/
theorem C6_one_column_per_accessor (r : Rows) (op : Op) (hop : op ≠ Op.next) :
    ((r.step op).offset = (readRowValue r.packet r.offset).2.1)
  ∧ ((r.step op).packet = r.packet)
  ∧ ((r.nullBytes).1 = ((readRowValue r.packet r.offset).1,
        (readRowValue r.packet r.offset).2.2))
  ∧ (r.offset < r.packet.length → r.offset < (r.step op).offset) := by
  refine ⟨?_, ?_, ?_, ?_⟩
  · rw [step_accessor r op hop]
  · rw [step_accessor r op hop]
  · rw [nullBytes_eq]
  · intro hin
    rw [step_accessor r op hop]
    exact readRowValue_advance r.packet r.offset hin

/-- Witness for C6 on the `"300"` row with a string accessor. -/
theorem C6_one_column_witness :
    ((col300Rows.step Op.nullString).offset =
        (readRowValue col300Rows.packet col300Rows.offset).2.1)
  ∧ ((col300Rows.step Op.nullString).packet = col300Rows.packet)
  ∧ ((col300Rows.nullBytes).1 = ((readRowValue col300Rows.packet col300Rows.offset).1,
        (readRowValue col300Rows.packet col300Rows.offset).2.2))
  ∧ (col300Rows.offset < col300Rows.packet.length →
        col300Rows.offset < (col300Rows.step Op.nullString).offset) :=
  C6_one_column_per_accessor col300Rows Op.nullString (by decide)

/-- C7: a textual value exceeding the requested width's signed range is
a conversion (range) error — the error is latched, not silently
truncated: via the 8-bit accessor any value above 127 or below -128
latches Go's `ParseInt` range error, and via the 16-bit accessor any
value outside [-32768, 32767] does. -/
theorem C7_width_overflow (r : Rows) (s : String) (v : Int)
    (hcol : r.curCol = (s, false)) (hv : decValue s = some v) :
    ((127 < v ∨ v < -128) →
      ((r.nullInt8).2).lastError = some (GoError.num ⟨"ParseInt", s, ParseErr.range⟩))
  ∧ ((32767 < v ∨ v < -32768) →
      ((r.nullInt16).2).lastError = some (GoError.num ⟨"ParseInt", s, ParseErr.range⟩)) := by
  constructor
  · intro hover
    have hc : (((2 : Nat) ^ (8 - 1) : Nat) : Int) = 128 := by norm_num
    have hrange : (goParseIntCore s 8).2 = some ParseErr.range := by
      apply parseIntCore_range_of_overflow s v 8 (by norm_num) (by norm_num) hv
      rcases hover with ho | ho
      · exact Or.inl (by omega)
      · exact Or.inr (by omega)
    show ((r.nullInt8).2).err = _
    rw [Rows.nullInt8, readConv_snd]
    simp [hcol, int8Col_eq, hrange]
  · intro hover
    have hc : (((2 : Nat) ^ (16 - 1) : Nat) : Int) = 32768 := by norm_num
    have hrange : (goParseIntCore s 16).2 = some ParseErr.range := by
      apply parseIntCore_range_of_overflow s v 16 (by norm_num) (by norm_num) hv
      rcases hover with ho | ho
      · exact Or.inl (by omega)
      · exact Or.inr (by omega)
    show ((r.nullInt16).2).err = _
    rw [Rows.nullInt16, readConv_snd]
    simp [hcol, int16Col_eq, hrange]

/-- Witness for C7: reading `"300"` (value 300 > 127) through the 8-bit
accessor latches the `ParseInt` range error. -/
theorem C7_width_overflow_witness :
    ((col300Rows.nullInt8).2).lastError =
      some (GoError.num ⟨"ParseInt", "300", ParseErr.range⟩) :=
  (C7_width_overflow col300Rows "300" 300 (by decide) (by decide)).1
    (Or.inl (by norm_num))

/-- C8: the raw-bytes and string accessors never fail: on every packet
and offset they leave `LastError()` unchanged; and any accessor that is
neither `Next()` nor a numeric/boolean accessor leaves `LastError()`
unchanged — only the numeric and boolean accessors can latch a
conversion error. -/
theorem C8_raw_accessors_never_fail (r : Rows) (op : Op) (h1 : op ≠ Op.next)
    (h2 : op.isNumBool = false) :
    (((r.bytes).2).lastError = r.lastError)
  ∧ (((r.nullBytes).2).lastError = r.lastError)
  ∧ (((r.string).2).lastError = r.lastError)
  ∧ (((r.nullString).2).lastError = r.lastError)
  ∧ ((r.step op).lastError = r.lastError) := by
  have hnone : opNewError r op = none := by
    cases op <;> first | exact absurd rfl h1 | rfl | simp [Op.isNumBool] at h2
  refine ⟨?_, ?_, ?_, ?_, ?_⟩
  · simp [bytes_eq, Rows.lastError]
  · simp [nullBytes_eq, Rows.lastError]
  · simp [string_eq, Rows.lastError]
  · simp [nullString_eq, Rows.lastError]
  · show (r.step op).err = r.err
    rw [step_err r op]
    unfold latchAfter
    rw [hnone]

/-- Witness for C8: a `NullString()` read on the `"abc"`, `"xyz"` row. -/
theorem C8_raw_accessors_witness :
    (((twoBadColsRows.bytes).2).lastError = twoBadColsRows.lastError)
  ∧ (((twoBadColsRows.nullBytes).2).lastError = twoBadColsRows.lastError)
  ∧ (((twoBadColsRows.string).2).lastError = twoBadColsRows.lastError)
  ∧ (((twoBadColsRows.nullString).2).lastError = twoBadColsRows.lastError)
  ∧ ((twoBadColsRows.step Op.nullString).lastError = twoBadColsRows.lastError) :=
  C8_raw_accessors_never_fail twoBadColsRows Op.nullString (by decide) (by decide)

/-- C9: decoding the row `("42", NULL, "3.14")` in order via `Int()`,
`NullString()` and `Float64()` yields 42, `("", true)` and 3.14, with no
error latched. -/
theorem C9_round_trip :
    ((c9rows.next).1 = true)
  ∧ ((((c9rows.next).2).int).1 = 42)
  ∧ ((((((c9rows.next).2).int).2).nullString).1 = ("", true))
  ∧ ((((((((c9rows.next).2).int).2).nullString).2).float64).1 = (3.14 : Rat))
  ∧ ((((((((c9rows.next).2).int).2).nullString).2).float64).2).lastError = none := by
  have h : (3.14 : Rat) = mkRat 157 50 := by
    norm_num [Rat.mkRat_eq_divInt, Rat.divInt_eq_div]
  rw [h]
  decide

/-- C10: accessor calls mutate only the column offset and the latched
error: the loaded packet, the stream-ended flag and the Row Source state
are identical before and after any accessor call. -/
theorem C10_accessor_frame (r : Rows) (op : Op) (hop : op ≠ Op.next) :
    ((r.step op).packet = r.packet)
  ∧ ((r.step op).eof = r.eof)
  ∧ ((r.step op).resultSet = r.resultSet) := by
  rw [step_accessor r op hop]
  exact ⟨rfl, rfl, rfl⟩

/-- Witness for C10: a failing `NullBool()` read on the `"abc"`, `"xyz"`
row changes neither packet nor `eof` nor the Row Source. -/
theorem C10_accessor_frame_witness :
    ((twoBadColsRows.step Op.nullBool).packet = twoBadColsRows.packet)
  ∧ ((twoBadColsRows.step Op.nullBool).eof = twoBadColsRows.eof)
  ∧ ((twoBadColsRows.step Op.nullBool).resultSet = twoBadColsRows.resultSet) :=
  C10_accessor_frame twoBadColsRows Op.nullBool (by decide)
